import Mathlib

/-!
Shallow embedding of `runoff_ans.py` (snow melt model with a calibration
sweep over one free parameter), over exact rationals.

The repository's own code is `MyFirstModel.__init__ / initial / dynamic`
and the script-level calibration loop; those are translated directly.
The PCRaster library routines it calls (`timeinputscalar`, `lddcreate`,
`accuflux`, `cellarea`, `getCellValueAtBooleanLocation`,
`TimeoutputTimeseries`) are external collaborators, modelled from the
spec's contracts where their behaviour matters.
-/

namespace RunoffAns

/-- Constant `elevationMeteoStation = 208.1` from `MyFirstModel.initial`. -/
def elevationMeteoStation : ℚ := 2081 / 10

/-- The two physical parameters held by a model instance. -/
structure Params where
  meltRate : ℚ
  temperatureLapseRate : ℚ
  deriving DecidableEq

/-- From `MyFirstModel.__init__`: the candidate `myParameter` becomes the free
parameter selected by `cali_on_melt_rate`; the other parameter keeps its
fixed default (`temperatureLapseRate = 0.005`, resp. `meltRate = 0.01`). -/
def initParams (myParameter : ℚ) (caliOnMeltRate : Bool) : Params :=
  if caliOnMeltRate then ⟨myParameter, 5 / 1000⟩ else ⟨1 / 100, myParameter⟩

/-- From `MyFirstModel.initial`:
`temperatureCorrection = (dem - elevationMeteoStation) * temperatureLapseRate`. -/
def temperatureCorrection {n : ℕ} (dem : Fin n → ℚ) (p : Params) (c : Fin n) : ℚ :=
  (dem c - elevationMeteoStation) * p.temperatureLapseRate

/-- All per-cell quantities computed by one execution of
`MyFirstModel.dynamic` at one cell, with `snow` the updated storage. -/
structure DayResult where
  freezing : Bool
  snowFall : ℚ
  rainFall : ℚ
  potentialMelt : ℚ
  actualMelt : ℚ
  snow : ℚ
  runoffGenerated : ℚ
  deriving DecidableEq

/-- The per-cell transition of `MyFirstModel.dynamic` (lines 54-78), in the
source's statement order: temperature correction, freezing test, snowfall /
rainfall split, storage update by snowfall, potential melt, actual melt as
`min`, storage update by melt, generated runoff. -/
def dynamicStep (p : Params) (tempCor snow precipitation temperatureObserved : ℚ) :
    DayResult :=
  let temperature := temperatureObserved - tempCor
  let freezing : Bool := decide (temperature < 0)
  let snowFall := if freezing then precipitation else 0
  let rainFall := if !freezing then precipitation else 0
  let snow1 := snow + snowFall
  let potentialMelt := if !freezing then temperature * p.meltRate else 0
  let actualMelt := min snow1 potentialMelt
  let snow2 := snow1 - actualMelt
  { freezing := freezing
    snowFall := snowFall
    rainFall := rainFall
    potentialMelt := potentialMelt
    actualMelt := actualMelt
    snow := snow2
    runoffGenerated := actualMelt + rainFall }

/-- The immutable inputs of one model script execution: the elevation map
`dem.map`, the observation-location map `out.map` (a boolean mask with one
true cell, modelled by that cell's index), the cell areas, and the three
day-indexed forcing series read by `timeinputscalar` (modelled from the
spec: reading `precip.tss` / `temp.tss` / `observed.tss` yields the day's
scalar value, spatially uniform; day indices are 1-based).
`lddcreate` is the PCRaster drainage-network builder, modelled from the
spec as a deterministic function of the elevation grid producing, for every
cell, at most one downstream neighbour (`none` for a pit/outlet). -/
structure Inputs (n : ℕ) where
  dem : Fin n → ℚ
  observationLocation : Fin n
  lddcreate : (Fin n → ℚ) → Fin n → Option (Fin n)
  area : Fin n → ℚ
  precip : ℕ → ℚ
  temperatureObserved : ℕ → ℚ
  observed : ℕ → ℚ

/-- Field `self.ldd = lddcreate(dem, ...)`, computed in `initial`. -/
def ldd {n : ℕ} (I : Inputs n) : Fin n → Option (Fin n) :=
  I.lddcreate I.dem

/-- Snow storage field after `d` days (`initial` sets `self.snow = 0.0`,
then `dynamic` runs once per day, days numbered from 1). -/
def snowAfter {n : ℕ} (I : Inputs n) (p : Params) : ℕ → Fin n → ℚ
  | 0, _ => 0
  | d + 1, c =>
      (dynamicStep p (temperatureCorrection I.dem p c) (snowAfter I p d c)
        (I.precip (d + 1)) (I.temperatureObserved (d + 1))).snow

/-- The per-cell quantities computed by `dynamic` on day `d` (1-based). -/
def dayResult {n : ℕ} (I : Inputs n) (p : Params) (d : ℕ) (c : Fin n) : DayResult :=
  dynamicStep p (temperatureCorrection I.dem p c) (snowAfter I p (d - 1) c)
    (I.precip d) (I.temperatureObserved d)

/-- Iteration of the downstream pointer, `k` times. -/
def iterDown {n : ℕ} (down : Fin n → Option (Fin n)) : ℕ → Fin n → Option (Fin n)
  | 0, c => some c
  | k + 1, c => (iterDown down k c).bind down

/-- Flow from `u` reaches `c`: some downstream-pointer path (of length at most
`n`, which suffices in an acyclic network on `n` cells) leads from `u` to `c`. -/
def flowsTo {n : ℕ} (down : Fin n → Option (Fin n)) (u c : Fin n) : Prop :=
  ∃ k ∈ Finset.range (n + 1), iterDown down k u = some c

instance {n : ℕ} (down : Fin n → Option (Fin n)) (u c : Fin n) :
    Decidable (flowsTo down u c) := by
  unfold flowsTo; infer_instance

/-- The cells whose flow reaches `c` (including `c` itself). -/
def upstream {n : ℕ} (down : Fin n → Option (Fin n)) (c : Fin n) : Finset (Fin n) :=
  Finset.univ.filter (fun u => flowsTo down u c)

/-- The cells whose downstream pointer targets `c` directly. -/
def children {n : ℕ} (down : Fin n → Option (Fin n)) (c : Fin n) : Finset (Fin n) :=
  Finset.univ.filter (fun u => down u = some c)

/-- Modelled from the spec: PCRaster `accuflux(ldd, material)` — flow
accumulation; each cell's accumulated amount is the sum of the material of
all cells whose flow reaches it, itself included. -/
def accuflux {n : ℕ} (down : Fin n → Option (Fin n)) (material : Fin n → ℚ)
    (c : Fin n) : ℚ :=
  ∑ u ∈ upstream down c, material u

/-- Value `discharge = accuflux(self.ldd, runoffGenerated * cellarea())` on day `d`. -/
def discharge {n : ℕ} (I : Inputs n) (p : Params) (d : ℕ) (c : Fin n) : ℚ :=
  accuflux (ldd I) (fun u => (dayResult I p d u).runoffGenerated * I.area u) c

/-- Modelled from the spec: `getCellValueAtBooleanLocation` reads the
discharge value at the single true cell of the observation mask. -/
def runoffAtOutflowPoint {n : ℕ} (I : Inputs n) (p : Params) (d : ℕ) : ℚ :=
  discharge I p d I.observationLocation

/-- Value `self.outflow_diff = observed - runoffAtOutflowPoint` on day `d`. -/
def outflowDiff {n : ℕ} (I : Inputs n) (p : Params) (d : ℕ) : ℚ :=
  I.observed d - runoffAtOutflowPoint I p d

/-- Array `self.simulation` of length `N`; day `d`'s
`outflow_diff` is written at index `currentTimeStep() - 1 = d - 1`. -/
def simulation {n : ℕ} (I : Inputs n) (p : Params) (N : ℕ) : List ℚ :=
  (List.range N).map fun i => outflowDiff I p (i + 1)

/-- Modelled from the spec: the `modelled` TimeoutputTimeseries — the
modelled gauge discharge sampled on day `d` is recorded at row `d`
(index `d - 1` of the day-ordered series). -/
def modelledSeries {n : ℕ} (I : Inputs n) (p : Params) (N : ℕ) : List ℚ :=
  (List.range N).map fun i => runoffAtOutflowPoint I p (i + 1)

/-- Mean of a list of rationals, as `numpy.mean`. -/
def npMean (xs : List ℚ) : ℚ :=
  xs.sum / (xs.length : ℚ)

/-- Rounding of `numpy.rint` / the integer part of `numpy.round`: half to even. -/
def rint (x : ℚ) : ℚ :=
  let f : ℤ := ⌊x⌋
  let r : ℚ := x - (f : ℚ)
  if r < 1 / 2 then (f : ℚ)
  else if 1 / 2 < r then (f : ℚ) + 1
  else if 2 ∣ f then (f : ℚ) else (f : ℚ) + 1

/-- Rounding of `numpy.round(x, 4)`: half to even at the fourth decimal. -/
def npRound4 (x : ℚ) : ℚ :=
  rint (x * 10000) / 10000

/-- Horizon `NR_OF_TIME_STEPS = 181`. -/
def NR_OF_TIME_STEPS : ℕ := 181

/-- The objective of one run: `numpy.mean(numpy.abs(myModel.simulation))`,
the mean absolute modelled-vs-observed outflow difference over the horizon. -/
def objectiveOf {n : ℕ} (I : Inputs n) (p : Params) : ℚ :=
  npMean ((simulation I p NR_OF_TIME_STEPS).map fun x => |x|)

/-- One record appended to `result` for candidate `i`:
`[numpy.round(meltRate, 4), numpy.round(temperatureLapseRate, 4), numpy.rint(diff)]`
computed from a fresh full-horizon run with `initParams i caliOnMeltRate`. -/
def sweepRecord {n : ℕ} (I : Inputs n) (caliOnMeltRate : Bool) (i : ℚ) : ℚ × ℚ × ℚ :=
  let p := initParams i caliOnMeltRate
  (npRound4 p.meltRate, npRound4 p.temperatureLapseRate, rint (objectiveOf I p))

/-- The script's calibration loop: for each candidate `i` of `my_range`, in
order, run a fresh model and append one record to the accumulated `result`. -/
def sweepLoop {n : ℕ} (I : Inputs n) (caliOnMeltRate : Bool)
    (acc : List (ℚ × ℚ × ℚ)) : List ℚ → List (ℚ × ℚ × ℚ)
  | [] => acc
  | i :: rest => sweepLoop I caliOnMeltRate (acc ++ [sweepRecord I caliOnMeltRate i]) rest

/-- Value of `result` after the loop over the whole candidate range. -/
def sweepResult {n : ℕ} (I : Inputs n) (caliOnMeltRate : Bool)
    (myRange : List ℚ) : List (ℚ × ℚ × ℚ) :=
  sweepLoop I caliOnMeltRate [] myRange

/-- The drainage network derived by run number `k`'s `initial()` call
(`self.ldd = lddcreate(dem, ...)` executes once per constructed model). -/
def runLdd {n : ℕ} (I : Inputs n) (_candidate : ℚ) (_caliOnMeltRate : Bool) :
    Fin n → Option (Fin n) :=
  I.lddcreate I.dem

/-- The sequence of drainage-network derivations performed across the sweep:
one `lddcreate` evaluation per candidate, since each loop iteration
constructs a fresh `MyFirstModel` whose `initial()` recomputes `self.ldd`. -/
def sweepLdds {n : ℕ} (I : Inputs n) (caliOnMeltRate : Bool) (myRange : List ℚ) :
    List (Fin n → Option (Fin n)) :=
  myRange.map fun i => runLdd I i caliOnMeltRate

/-- Semantics of `numpy.arange(start, stop, step)` over exact rationals:
`⌈(stop - start) / step⌉` elements, element `k` being `start + k * step`. -/
def arangeQ (start stop step : ℚ) : List ℚ :=
  (List.range (⌈(stop - start) / step⌉).toNat).map fun (k : ℕ) => start + (k : ℚ) * step

/-- Range `numpy.arange(0.001, 0.02, 0.001)`, the melt-rate candidate range. -/
def meltRateRange : List ℚ :=
  arangeQ (1 / 1000) (2 / 100) (1 / 1000)

/-- Range `numpy.arange(0.0041, 0.006, 0.0001)`, the lapse-rate candidate range. -/
def lapseRateRange : List ℚ :=
  arangeQ (41 / 10000) (6 / 1000) (1 / 10000)

/-- One-cell inputs for the concrete single-cell scenario: elevation equal
to the meteo-station elevation, precipitation `[10, 0, 0]`, observed
temperature `[-1, 5, 5]`; the single cell is its own outlet (a pit). -/
def oneCellInputs : Inputs 1 where
  dem := fun _ => 2081 / 10
  observationLocation := 0
  lddcreate := fun _ _ => none
  area := fun _ => 1
  precip := fun d => if d = 1 then 10 else 0
  temperatureObserved := fun d => if d = 1 then -1 else 5
  observed := fun _ => 0

/-- The two-cell linear network of the spec's concrete test: cell 0 (the
source) drains into cell 1 (the sink). -/
def twoCellDown : Fin 2 → Option (Fin 2) :=
  fun u => if u = 0 then some 1 else none

/-- Material for the two-cell test: both cells produce runoff `1.0` on an
area of `1` unit. -/
def twoCellMaterial : Fin 2 → ℚ :=
  fun _ => 1 * 1

end RunoffAns

namespace RunoffAns

/-! ## Helper lemmas about the per-cell transition -/

/-- Water balance of one `dynamic` step at one cell: the day's precipitation
equals the generated runoff plus the change in snow storage. -/
lemma dynamicStep_balance (p : Params) (tc s pr t : ℚ) :
    (dynamicStep p tc s pr t).runoffGenerated + ((dynamicStep p tc s pr t).snow - s) = pr := by
  dsimp only [dynamicStep]
  by_cases h : t - tc < 0 <;> simp [h] <;> ring

/-- One `dynamic` step never drives snow storage negative, whatever the
inputs: the stored amount becomes `snow1 - min snow1 potentialMelt`. -/
lemma dynamicStep_snow_nonneg (p : Params) (tc s pr t : ℚ) :
    0 ≤ (dynamicStep p tc s pr t).snow := by
  dsimp only [dynamicStep]
  exact sub_nonneg.2 (min_le_left _ _)

/-- Unfolding: `snowAfter (d+1)` is the `snow` field of day `d+1`'s transition. -/
lemma snowAfter_succ {n : ℕ} (I : Inputs n) (p : Params) (d : ℕ) (c : Fin n) :
    snowAfter I p (d + 1) c = (dayResult I p (d + 1) c).snow := rfl

/-! ## Claim theorems -/

/-- C2: per-cell mass conservation — for every run (any inputs and
parameters), every cell, and every horizon `N`, the cumulative
precipitation over days `1..N` equals the cumulative `runoffGenerated` by
that cell plus its final snow storage (which starts at `0`). -/
theorem per_cell_mass_conservation {n : ℕ} (I : Inputs n) (p : Params) (c : Fin n)
    (N : ℕ) :
    ∑ d ∈ Finset.range N, I.precip (d + 1)
      = (∑ d ∈ Finset.range N, (dayResult I p (d + 1) c).runoffGenerated)
        + snowAfter I p N c := by
  induction N with
  | zero => simp [snowAfter]
  | succ N ih =>
      rw [Finset.sum_range_succ, Finset.sum_range_succ, snowAfter_succ]
      have hb := dynamicStep_balance p (temperatureCorrection I.dem p c)
        (snowAfter I p N c) (I.precip (N + 1)) (I.temperatureObserved (N + 1))
      have hd : dayResult I p (N + 1) c
          = dynamicStep p (temperatureCorrection I.dem p c) (snowAfter I p N c)
              (I.precip (N + 1)) (I.temperatureObserved (N + 1)) := rfl
      rw [hd]
      linarith [ih, hb]

/-- C3: for every run and every sequence of daily precipitation and
temperature inputs, snow storage is nonnegative at every cell after every
daily update, starting from `snowStorage = 0`; the `min` clamp in
`actualMelt = min(snow, potentialMelt)` guarantees it. -/
theorem snow_storage_nonneg {n : ℕ} (I : Inputs n) (p : Params) (d : ℕ) (c : Fin n) :
    0 ≤ snowAfter I p d c := by
  cases d with
  | zero => exact le_refl 0
  | succ d => exact dynamicStep_snow_nonneg _ _ _ _ _

/-- C9: the concrete single-cell scenario — one cell at the reference
station elevation (zero temperature correction), three days with
precipitation `[10, 0, 0]`, observed temperature `[-1, 5, 5]` and
`meltRate = 0.1`: day 1 is frozen with storage `10` and runoff `0`; days 2
and 3 melt `0.5` each (potential melt = actual melt = `0.5`), leaving
storage `9.5` then `9.0`, with runoff `0.5` each day. -/
theorem single_cell_three_day_scenario :
    temperatureCorrection oneCellInputs.dem ⟨1/10, 5/1000⟩ 0 = 0
    ∧ (dayResult oneCellInputs ⟨1/10, 5/1000⟩ 1 0).freezing = true
    ∧ snowAfter oneCellInputs ⟨1/10, 5/1000⟩ 1 0 = 10
    ∧ (dayResult oneCellInputs ⟨1/10, 5/1000⟩ 1 0).runoffGenerated = 0
    ∧ (dayResult oneCellInputs ⟨1/10, 5/1000⟩ 2 0).freezing = false
    ∧ (dayResult oneCellInputs ⟨1/10, 5/1000⟩ 2 0).potentialMelt = 1/2
    ∧ (dayResult oneCellInputs ⟨1/10, 5/1000⟩ 2 0).actualMelt = 1/2
    ∧ snowAfter oneCellInputs ⟨1/10, 5/1000⟩ 2 0 = 19/2
    ∧ (dayResult oneCellInputs ⟨1/10, 5/1000⟩ 2 0).runoffGenerated = 1/2
    ∧ (dayResult oneCellInputs ⟨1/10, 5/1000⟩ 3 0).freezing = false
    ∧ (dayResult oneCellInputs ⟨1/10, 5/1000⟩ 3 0).potentialMelt = 1/2
    ∧ (dayResult oneCellInputs ⟨1/10, 5/1000⟩ 3 0).actualMelt = 1/2
    ∧ snowAfter oneCellInputs ⟨1/10, 5/1000⟩ 3 0 = 9
    ∧ (dayResult oneCellInputs ⟨1/10, 5/1000⟩ 3 0).runoffGenerated = 1/2 := by
  refine ⟨?_, ?_, ?_, ?_, ?_, ?_, ?_, ?_, ?_, ?_, ?_, ?_, ?_, ?_⟩ <;>
    · simp [dayResult, snowAfter, dynamicStep, oneCellInputs, temperatureCorrection,
        elevationMeteoStation]
      try norm_num [min_def]

end RunoffAns

namespace RunoffAns

/-- C1: the per-cell daily transition follows the two-regime rule on
corrected temperature `t - tc`, where the correction
`tc = (cellElevation - referenceStationElevation) * temperatureLapseRate`
is a fixed function of the initialization data. Frozen regime
(`t - tc < 0`, with the physically supplied nonnegative storage and
precipitation): all precipitation goes to storage, rainfall and actual melt
are `0`. Melting regime (`0 ≤ t - tc`): all precipitation is rainfall,
potential melt is `(t - tc) * meltRate`, actual melt is
`min(snowStorage, potentialMelt)` and storage decreases by it. In both
regimes `runoffGenerated = actualMelt + rainFall`. -/
theorem snowmelt_two_regime_transition {n : ℕ} (dem : Fin n → ℚ) (p : Params)
    (c : Fin n) (s pr t : ℚ) (hs : 0 ≤ s) (hpr : 0 ≤ pr) :
    temperatureCorrection dem p c
        = (dem c - elevationMeteoStation) * p.temperatureLapseRate
    ∧ (dynamicStep p (temperatureCorrection dem p c) s pr t).runoffGenerated
        = (dynamicStep p (temperatureCorrection dem p c) s pr t).actualMelt
          + (dynamicStep p (temperatureCorrection dem p c) s pr t).rainFall
    ∧ (t - temperatureCorrection dem p c < 0 →
        (dynamicStep p (temperatureCorrection dem p c) s pr t).freezing = true
        ∧ (dynamicStep p (temperatureCorrection dem p c) s pr t).snow = s + pr
        ∧ (dynamicStep p (temperatureCorrection dem p c) s pr t).rainFall = 0
        ∧ (dynamicStep p (temperatureCorrection dem p c) s pr t).actualMelt = 0
        ∧ (dynamicStep p (temperatureCorrection dem p c) s pr t).runoffGenerated = 0)
    ∧ (0 ≤ t - temperatureCorrection dem p c →
        (dynamicStep p (temperatureCorrection dem p c) s pr t).freezing = false
        ∧ (dynamicStep p (temperatureCorrection dem p c) s pr t).rainFall = pr
        ∧ (dynamicStep p (temperatureCorrection dem p c) s pr t).potentialMelt
            = (t - temperatureCorrection dem p c) * p.meltRate
        ∧ (dynamicStep p (temperatureCorrection dem p c) s pr t).actualMelt
            = min s ((dynamicStep p (temperatureCorrection dem p c) s pr t).potentialMelt)
        ∧ (dynamicStep p (temperatureCorrection dem p c) s pr t).snow
            = s - (dynamicStep p (temperatureCorrection dem p c) s pr t).actualMelt) := by
  set tc := temperatureCorrection dem p c with htc
  refine ⟨rfl, ?_, ?_, ?_⟩
  · dsimp only [dynamicStep]
  · intro h
    have hd : decide (t - tc < 0) = true := decide_eq_true h
    have hmin : min (s + pr) (0 : ℚ) = 0 := min_eq_right (by linarith)
    dsimp only [dynamicStep]
    rw [hd]
    simp [hmin]
  · intro h
    have hd : decide (t - tc < 0) = false := decide_eq_false (not_lt.2 h)
    dsimp only [dynamicStep]
    rw [hd]
    simp

/-- Witness for C1: the frozen day of the single-cell scenario, with
`s = 0`, `pr = 10`, `t = -1`, discharging both nonnegativity hypotheses. -/
theorem snowmelt_two_regime_transition_witness :
    (0 : ℚ) ≤ 0 ∧ (0 : ℚ) ≤ 10 ∧
    (temperatureCorrection oneCellInputs.dem ⟨1/10, 5/1000⟩ 0
        = (oneCellInputs.dem 0 - elevationMeteoStation) * (5/1000)
      ∧ (dynamicStep ⟨1/10, 5/1000⟩
            (temperatureCorrection oneCellInputs.dem ⟨1/10, 5/1000⟩ 0) 0 10 (-1)).runoffGenerated
          = (dynamicStep ⟨1/10, 5/1000⟩
              (temperatureCorrection oneCellInputs.dem ⟨1/10, 5/1000⟩ 0) 0 10 (-1)).actualMelt
            + (dynamicStep ⟨1/10, 5/1000⟩
                (temperatureCorrection oneCellInputs.dem ⟨1/10, 5/1000⟩ 0) 0 10 (-1)).rainFall) := by
  refine ⟨le_refl 0, by norm_num, ?_⟩
  have h := snowmelt_two_regime_transition oneCellInputs.dem (⟨1/10, 5/1000⟩ : Params) 0
    0 10 (-1) (le_refl 0) (by norm_num)
  exact ⟨h.1, h.2.1⟩

/-- Identity `a - min a b = max (a - b) 0` over ℚ. -/
lemma sub_min_eq_max (a b : ℚ) : a - min a b = max (a - b) 0 := by
  rcases le_total a b with h | h
  · rw [min_eq_left h, max_eq_right (by linarith), sub_self]
  · rw [min_eq_right h, max_eq_left (by linarith)]

/-- Raising the melt rate (lapse rate and forcing fixed) can only lower the
snow storage produced by one day's transition, monotonically in the
incoming storage as well. -/
lemma dynamicStep_snow_mono (lr tc pr t : ℚ) (m1 m2 s1 s2 : ℚ)
    (hm : m1 ≤ m2) (hsle : s2 ≤ s1) :
    (dynamicStep ⟨m2, lr⟩ tc s2 pr t).snow ≤ (dynamicStep ⟨m1, lr⟩ tc s1 pr t).snow := by
  dsimp only [dynamicStep]
  rw [sub_min_eq_max, sub_min_eq_max]
  by_cases h : t - tc < 0
  · have hd : decide (t - tc < 0) = true := decide_eq_true h
    rw [hd]
    simp only [Bool.not_true, if_false, if_true, Bool.false_eq_true]
    exact max_le_max (by linarith) (le_refl 0)
  · have hd : decide (t - tc < 0) = false := decide_eq_false h
    have ht : 0 ≤ t - tc := not_lt.1 h
    rw [hd]
    simp only [Bool.not_false, if_true, if_false, Bool.true_eq_false]
    have hpm : (t - tc) * m1 ≤ (t - tc) * m2 := mul_le_mul_of_nonneg_left hm ht
    exact max_le_max (by linarith) (le_refl 0)

/-- Runwise monotonicity of per-cell snow storage in the melt rate. -/
lemma snowAfter_anti_mono {n : ℕ} (I : Inputs n) (lr m1 m2 : ℚ) (hm : m1 ≤ m2)
    (N : ℕ) (c : Fin n) :
    snowAfter I ⟨m2, lr⟩ N c ≤ snowAfter I ⟨m1, lr⟩ N c := by
  induction N with
  | zero => exact le_refl 0
  | succ N ih =>
      show (dynamicStep ⟨m2, lr⟩ _ _ _ _).snow ≤ (dynamicStep ⟨m1, lr⟩ _ _ _ _).snow
      exact dynamicStep_snow_mono lr _ _ _ m1 m2 _ _ hm ih

/-- C4 (amended): with fixed climate forcing and lapse rate, a larger melt
rate yields a final total snow storage across the grid that is less than or
equal to the one obtained with the smaller melt rate.  (The claim's further
assertion that the inequality is strict unless storage is already fully
melted fails on all-frozen forcing, where storage stays positive and equal
for all melt rates.) -/
theorem final_snow_antitone_in_melt_rate {n : ℕ} (I : Inputs n) (lr m1 m2 : ℚ)
    (hm : m1 ≤ m2) (N : ℕ) :
    ∑ c, snowAfter I ⟨m2, lr⟩ N c ≤ ∑ c, snowAfter I ⟨m1, lr⟩ N c :=
  Finset.sum_le_sum fun c _ => snowAfter_anti_mono I lr m1 m2 hm N c

/-- Witness for C4's amended theorem at the concrete single-cell inputs with
`m1 = 0.01 ≤ m2 = 0.1` over a 3-day horizon. -/
theorem final_snow_antitone_in_melt_rate_witness :
    (1 : ℚ)/100 ≤ 1/10 ∧
    ∑ c, snowAfter oneCellInputs ⟨1/10, 5/1000⟩ 3 c
      ≤ ∑ c, snowAfter oneCellInputs ⟨1/100, 5/1000⟩ 3 c :=
  ⟨by norm_num,
   final_snow_antitone_in_melt_rate oneCellInputs (5/1000) (1/100) (1/10) (by norm_num) 3⟩

/-- Counterexample to C4 as stated: with the single-cell inputs and a
1-day horizon the only day is frozen, so melt rates `0.01 < 0.1` leave the
same positive final total storage `10` — the storage is not fully melted,
yet the larger melt rate does not yield strictly less storage. -/
theorem melt_rate_strict_monotonicity_fails :
    (1 : ℚ)/100 < 1/10
    ∧ ∑ c, snowAfter oneCellInputs ⟨1/10, 5/1000⟩ 1 c = 10
    ∧ ∑ c, snowAfter oneCellInputs ⟨1/100, 5/1000⟩ 1 c = 10
    ∧ ¬ (∑ c, snowAfter oneCellInputs ⟨1/10, 5/1000⟩ 1 c
          < ∑ c, snowAfter oneCellInputs ⟨1/100, 5/1000⟩ 1 c) := by
  have h1 : ∑ c, snowAfter oneCellInputs ⟨(1:ℚ)/10, 5/1000⟩ 1 c = 10 := by
    rw [Fin.sum_univ_one]
    simp [snowAfter, dynamicStep, oneCellInputs, temperatureCorrection, elevationMeteoStation]
  have h2 : ∑ c, snowAfter oneCellInputs ⟨(1:ℚ)/100, 5/1000⟩ 1 c = 10 := by
    rw [Fin.sum_univ_one]
    simp [snowAfter, dynamicStep, oneCellInputs, temperatureCorrection, elevationMeteoStation]
  exact ⟨by norm_num, h1, h2, by rw [h1, h2]; exact lt_irrefl 10⟩

end RunoffAns

namespace RunoffAns

/-! ## Helper lemmas for the sweep and the recorded series -/

/-- The calibration loop is a plain map: starting from accumulator `acc` it
appends exactly one record per candidate, in candidate order. -/
lemma sweepLoop_eq_append {n : ℕ} (I : Inputs n) (cali : Bool) (rng : List ℚ)
    (acc : List (ℚ × ℚ × ℚ)) :
    sweepLoop I cali acc rng = acc ++ rng.map (sweepRecord I cali) := by
  induction rng generalizing acc with
  | nil => simp [sweepLoop]
  | cons i rest ih => simp [sweepLoop, ih]

/-- Rounding `numpy.rint` is the identity on integers. -/
lemma rint_intCast (m : ℤ) : rint ((m : ℚ)) = (m : ℚ) := by
  unfold rint
  simp [Int.floor_intCast]

/-- A rational that is an integer multiple of `10^-4` is fixed by
`numpy.round(·, 4)`. -/
lemma npRound4_eq_self (x : ℚ) (m : ℤ) (h : x * 10000 = (m : ℚ)) :
    npRound4 x = x := by
  have hx : x = (m : ℚ) / 10000 := by
    field_simp
    linarith
  rw [npRound4, h, rint_intCast, hx]

/-- Every element of `arangeQ start stop step` has the form
`start + k * step`. -/
lemma mem_arangeQ {start stop step x : ℚ} (hx : x ∈ arangeQ start stop step) :
    ∃ k : ℕ, x = start + (k : ℚ) * step := by
  rcases List.mem_map.1 hx with ⟨k, _, rfl⟩
  exact ⟨k, rfl⟩

/-- C5: the calibration sweep is an exhaustive in-order grid search — the
result is the candidate list mapped through a per-candidate record, hence
exactly one record per candidate with no early termination; each record is
produced by a fresh full-horizon run with the candidate as free parameter
and the fixed default for the other parameter; its objective entry is
`rint` of `mean(|difference_day|)` over all `NR_OF_TIME_STEPS` days of that
run; and on the given candidate ranges the recorded parameter values are
exactly the candidate and the fixed default. -/
theorem calibration_sweep_exhaustive {n : ℕ} (I : Inputs n) (cali : Bool)
    (rng : List ℚ) :
    sweepResult I cali rng = rng.map (sweepRecord I cali)
    ∧ (sweepResult I cali rng).length = rng.length
    ∧ (∀ i : ℚ, sweepRecord I true i
        = (npRound4 i, npRound4 (5/1000),
           rint (npMean ((simulation I ⟨i, 5/1000⟩ NR_OF_TIME_STEPS).map fun x => |x|))))
    ∧ (∀ i : ℚ, sweepRecord I false i
        = (npRound4 (1/100), npRound4 i,
           rint (npMean ((simulation I ⟨1/100, i⟩ NR_OF_TIME_STEPS).map fun x => |x|))))
    ∧ (∀ i ∈ meltRateRange, sweepRecord I true i
        = (i, 5/1000,
           rint (npMean ((simulation I ⟨i, 5/1000⟩ NR_OF_TIME_STEPS).map fun x => |x|))))
    ∧ (∀ i ∈ lapseRateRange, sweepRecord I false i
        = (1/100, i,
           rint (npMean ((simulation I ⟨1/100, i⟩ NR_OF_TIME_STEPS).map fun x => |x|)))) := by
  have hmap : sweepResult I cali rng = rng.map (sweepRecord I cali) := by
    rw [sweepResult, sweepLoop_eq_append, List.nil_append]
  have hrec_true : ∀ i : ℚ, sweepRecord I true i
      = (npRound4 i, npRound4 (5/1000),
         rint (npMean ((simulation I ⟨i, 5/1000⟩ NR_OF_TIME_STEPS).map fun x => |x|))) := by
    intro i
    rfl
  have hrec_false : ∀ i : ℚ, sweepRecord I false i
      = (npRound4 (1/100), npRound4 i,
         rint (npMean ((simulation I ⟨1/100, i⟩ NR_OF_TIME_STEPS).map fun x => |x|))) := by
    intro i
    rfl
  have hdef_lapse : npRound4 ((5 : ℚ)/1000) = 5/1000 :=
    npRound4_eq_self _ 50 (by norm_num)
  have hdef_melt : npRound4 ((1 : ℚ)/100) = 1/100 :=
    npRound4_eq_self _ 100 (by norm_num)
  refine ⟨hmap, by rw [hmap, List.length_map], hrec_true, hrec_false, ?_, ?_⟩
  · intro i hi
    rcases mem_arangeQ hi with ⟨k, rfl⟩
    have hid : npRound4 ((1 : ℚ)/1000 + (k : ℚ) * (1/1000))
        = (1 : ℚ)/1000 + (k : ℚ) * (1/1000) := by
      refine npRound4_eq_self _ (10 + 10 * (k : ℤ)) ?_
      push_cast
      ring
    rw [hrec_true, hid, hdef_lapse]
  · intro i hi
    rcases mem_arangeQ hi with ⟨k, rfl⟩
    have hid : npRound4 ((41 : ℚ)/10000 + (k : ℚ) * (1/10000))
        = (41 : ℚ)/10000 + (k : ℚ) * (1/10000) := by
      refine npRound4_eq_self _ (41 + (k : ℤ)) ?_
      push_cast
      ring
    rw [hrec_false, hid, hdef_melt]

/-- Witness for C5: the first melt-rate candidate `0.001` is in the range
and its sweep record carries the candidate itself, the default lapse rate,
and the rounded objective of its own fresh run. -/
theorem calibration_sweep_exhaustive_witness :
    ((1 : ℚ)/1000) ∈ meltRateRange
    ∧ sweepRecord oneCellInputs true ((1 : ℚ)/1000)
        = ((1 : ℚ)/1000, 5/1000,
           rint (npMean ((simulation oneCellInputs ⟨1/1000, 5/1000⟩
              NR_OF_TIME_STEPS).map fun x => |x|))) := by
  have hmem : ((1 : ℚ)/1000) ∈ meltRateRange := by
    rw [meltRateRange, arangeQ]
    refine List.mem_map.2 ⟨0, ?_, by norm_num⟩
    refine List.mem_range.2 ?_
    norm_num
  exact ⟨hmem,
    (calibration_sweep_exhaustive oneCellInputs true []).2.2.2.2.1 _ hmem⟩

/-- C7 counterexample: the drainage network is not derived exactly once per
sweep — each of the 19 melt-rate candidates constructs a fresh model whose
`initial()` re-evaluates `lddcreate` on the elevation grid, so the sweep
performs 19 derivations, not 1. -/
theorem ldd_derived_once_per_run_not_once :
    (sweepLdds oneCellInputs true meltRateRange).length = 19
    ∧ (19 : ℕ) ≠ 1 := by
  constructor
  · rw [sweepLdds, List.length_map, meltRateRange, arangeQ, List.length_map,
      List.length_range]
    norm_num
    rfl
  · norm_num

/-- C7 (amended): every run's `initial()` re-derives the drainage network,
but from the same immutable elevation grid through the same deterministic
builder, so all runs use an equal network; per-run state is fresh — every
run starts with zero snow storage, and the record at position `k` of the
sweep depends only on candidate `k`, never on other candidates' runs. -/
theorem runs_share_equal_network_and_fresh_state {n : ℕ} (I : Inputs n)
    (cali : Bool) (rng : List ℚ) :
    (∀ L ∈ sweepLdds I cali rng, L = ldd I)
    ∧ (∀ i : ℚ, ∀ c, snowAfter I (initParams i cali) 0 c = 0)
    ∧ (∀ k : ℕ, (sweepResult I cali rng).get? k = (rng.get? k).map (sweepRecord I cali)) := by
  refine ⟨?_, fun i c => rfl, ?_⟩
  · intro L hL
    rcases List.mem_map.1 hL with ⟨i, _, rfl⟩
    rfl
  · intro k
    rw [sweepResult, sweepLoop_eq_append, List.nil_append, List.get?_map]

/-- Witness for C7's amended theorem: for the concrete melt-rate sweep, the
first run's network equals the shared derived network, its initial storage
is zero, and record 0 is the record of candidate `0.001`. -/
theorem runs_share_equal_network_and_fresh_state_witness :
    runLdd oneCellInputs ((1 : ℚ)/1000) true ∈ sweepLdds oneCellInputs true meltRateRange
    ∧ runLdd oneCellInputs ((1 : ℚ)/1000) true = ldd oneCellInputs
    ∧ snowAfter oneCellInputs (initParams ((1 : ℚ)/1000) true) 0 0 = 0 := by
  have hmem : ((1 : ℚ)/1000) ∈ meltRateRange := by
    rw [meltRateRange, arangeQ]
    refine List.mem_map.2 ⟨0, ?_, by norm_num⟩
    refine List.mem_range.2 ?_
    norm_num
  have h := runs_share_equal_network_and_fresh_state oneCellInputs true meltRateRange
  refine ⟨List.mem_map.2 ⟨_, hmem, rfl⟩, ?_, h.2.1 _ 0⟩
  exact h.1 _ (List.mem_map.2 ⟨_, hmem, rfl⟩)

/-- C8: for every day `d` in `1..N`, the driver computes
`difference = observed(d) - modelledDischarge(d)` and stores the difference
at index `d - 1` of the run's difference array and the modelled discharge
at index `d - 1` of the day-ordered modelled series; both series have
length `N`. -/
theorem driver_records_daily_series {n : ℕ} (I : Inputs n) (p : Params)
    (N d : ℕ) (h1 : 1 ≤ d) (h2 : d ≤ N) :
    (simulation I p N).length = N
    ∧ (modelledSeries I p N).length = N
    ∧ outflowDiff I p d = I.observed d - runoffAtOutflowPoint I p d
    ∧ (simulation I p N).get? (d - 1)
        = some (I.observed d - runoffAtOutflowPoint I p d)
    ∧ (modelledSeries I p N).get? (d - 1) = some (runoffAtOutflowPoint I p d) := by
  have hlt : d - 1 < N := by omega
  have hd1 : d - 1 + 1 = d := by omega
  refine ⟨by simp [simulation], by simp [modelledSeries], rfl, ?_, ?_⟩
  · rw [simulation, List.get?_map, List.get?_range hlt]
    simp [outflowDiff, hd1]
  · rw [modelledSeries, List.get?_map, List.get?_range hlt]
    simp [hd1]

/-- Witness for C8 at the single-cell inputs, day 2 of a 3-day horizon. -/
theorem driver_records_daily_series_witness :
    (1 ≤ 2 ∧ 2 ≤ 3)
    ∧ (simulation oneCellInputs ⟨1/10, 5/1000⟩ 3).get? 1
        = some (oneCellInputs.observed 2
            - runoffAtOutflowPoint oneCellInputs ⟨1/10, 5/1000⟩ 2) := by
  refine ⟨⟨by norm_num, by norm_num⟩, ?_⟩
  have h := driver_records_daily_series oneCellInputs (⟨1/10, 5/1000⟩ : Params) 3 2
    (by norm_num) (by norm_num)
  exact h.2.2.2.1

end RunoffAns

namespace RunoffAns

lemma iterDown_zero {n : ℕ} (down : Fin n → Option (Fin n)) (u : Fin n) :
    iterDown down 0 u = some u := rfl

lemma iterDown_succ {n : ℕ} (down : Fin n → Option (Fin n)) (k : ℕ) (u : Fin n) :
    iterDown down (k + 1) u = (iterDown down k u).bind down := rfl

lemma iterDown_add {n : ℕ} (down : Fin n → Option (Fin n)) (a b : ℕ) (u : Fin n) :
    iterDown down (a + b) u = (iterDown down a u).bind (iterDown down b) := by
  induction b with
  | zero =>
      rw [Nat.add_zero]
      cases iterDown down a u <;> rfl
  | succ b ih =>
      have h1 : iterDown down (a + (b + 1)) u = (iterDown down (a + b) u).bind down := rfl
      rw [h1, ih]
      cases iterDown down a u with
      | none => rfl
      | some v => rfl

lemma rank_le_of_iterDown {n : ℕ} {down : Fin n → Option (Fin n)} {rank : Fin n → ℕ}
    (hstep : ∀ u c, down u = some c → rank u < rank c) :
    ∀ (k : ℕ) (u v : Fin n), iterDown down k u = some v → rank u + k ≤ rank v := by
  intro k
  induction k with
  | zero =>
      intro u v h
      rw [iterDown_zero] at h
      rw [← Option.some.inj h]
      omega
  | succ k ih =>
      intro u v h
      rw [iterDown_succ] at h
      cases hw : iterDown down k u with
      | none => rw [hw] at h; exact absurd h (by simp)
      | some w =>
          rw [hw] at h
          have h1 := ih u w hw
          have h2 := hstep w v h
          omega

lemma iterDown_sub {n : ℕ} {down : Fin n → Option (Fin n)} {u v1 v2 : Fin n}
    {k1 k2 : ℕ} (h1 : iterDown down k1 u = some v1) (h2 : iterDown down k2 u = some v2)
    (hle : k1 ≤ k2) : iterDown down (k2 - k1) v1 = some v2 := by
  have hk : k2 = k1 + (k2 - k1) := by omega
  rw [hk, iterDown_add, h1] at h2
  exact h2

/-- In a ranked (acyclic) network, the flows of two distinct cells that both
drain directly into `c` never meet upstream of `c`. -/
lemma no_shared_upstream {n : ℕ} {down : Fin n → Option (Fin n)} {rank : Fin n → ℕ}
    (hstep : ∀ u c, down u = some c → rank u < rank c) {c v1 v2 u : Fin n} {k1 k2 : ℕ}
    (hd1 : down v1 = some c) (hd2 : down v2 = some c) (hne : v1 ≠ v2)
    (hi1 : iterDown down k1 u = some v1) (hi2 : iterDown down k2 u = some v2)
    (hle : k1 ≤ k2) : False := by
  have hsub : iterDown down (k2 - k1) v1 = some v2 := iterDown_sub hi1 hi2 hle
  rcases Nat.eq_zero_or_pos (k2 - k1) with hz | hpos
  · rw [hz, iterDown_zero] at hsub
    exact hne (Option.some.inj hsub)
  · obtain ⟨j, hj⟩ : ∃ j, k2 - k1 = j + 1 := ⟨k2 - k1 - 1, by omega⟩
    rw [hj] at hsub
    have h1v : iterDown down 1 v1 = some c := by
      rw [iterDown_succ, iterDown_zero]
      exact hd1
    have hadd : iterDown down (1 + j) v1 = (iterDown down 1 v1).bind (iterDown down j) :=
      iterDown_add down 1 j v1
    rw [Nat.add_comm 1 j, h1v] at hadd
    rw [hadd] at hsub
    have hjc : iterDown down j c = some v2 := hsub
    have hcc : iterDown down (j + 1) c = some c := by
      rw [iterDown_succ, hjc]
      exact hd2
    have := rank_le_of_iterDown hstep (j + 1) c c hcc
    omega

lemma mem_upstream_iff {n : ℕ} (down : Fin n → Option (Fin n)) (u c : Fin n) :
    u ∈ upstream down c ↔ ∃ k, k < n + 1 ∧ iterDown down k u = some c := by
  simp [upstream, flowsTo]

/-- Partition of the upstream set of `c`: `c` itself plus the disjoint
upstream sets of the cells draining directly into `c`. -/
lemma upstream_eq_insert_biUnion {n : ℕ} (down : Fin n → Option (Fin n))
    (rank : Fin n → ℕ) (hb : ∀ c, rank c < n)
    (hstep : ∀ u c, down u = some c → rank u < rank c) (c : Fin n) :
    upstream down c = insert c ((children down c).biUnion fun v => upstream down v) := by
  ext u
  rw [Finset.mem_insert, Finset.mem_biUnion, mem_upstream_iff]
  constructor
  · rintro ⟨k, hk, hiter⟩
    cases k with
    | zero =>
        rw [iterDown_zero] at hiter
        exact Or.inl (Option.some.inj hiter)
    | succ k =>
        rw [iterDown_succ] at hiter
        cases hw : iterDown down k u with
        | none => rw [hw] at hiter; exact absurd hiter (by simp)
        | some v =>
            rw [hw] at hiter
            have hdv : down v = some c := hiter
            refine Or.inr ⟨v, ?_, ?_⟩
            · simp [children, hdv]
            · rw [mem_upstream_iff]
              exact ⟨k, by omega, hw⟩
  · rintro (rfl | ⟨v, hv, hu⟩)
    · exact ⟨0, by omega, iterDown_zero down u⟩
    · rw [mem_upstream_iff] at hu
      obtain ⟨k, hk, hiter⟩ := hu
      have hdv : down v = some c := by
        simpa [children] using hv
      have hrank := rank_le_of_iterDown hstep k u v hiter
      have hvc := hstep v c hdv
      have hcn := hb c
      refine ⟨k + 1, by omega, ?_⟩
      rw [iterDown_succ, hiter]
      exact hdv

lemma not_mem_children_biUnion {n : ℕ} (down : Fin n → Option (Fin n))
    (rank : Fin n → ℕ) (hstep : ∀ u c, down u = some c → rank u < rank c) (c : Fin n) :
    c ∉ (children down c).biUnion fun v => upstream down v := by
  intro hc
  rw [Finset.mem_biUnion] at hc
  obtain ⟨v, hv, hcv⟩ := hc
  have hdv : down v = some c := by simpa [children] using hv
  rw [mem_upstream_iff] at hcv
  obtain ⟨k, hk, hiter⟩ := hcv
  have hcc : iterDown down (k + 1) c = some c := by
    rw [iterDown_succ, hiter]
    exact hdv
  have := rank_le_of_iterDown hstep (k + 1) c c hcc
  omega

lemma children_pairwiseDisjoint {n : ℕ} (down : Fin n → Option (Fin n))
    (rank : Fin n → ℕ) (hstep : ∀ u c, down u = some c → rank u < rank c) (c : Fin n) :
    Set.PairwiseDisjoint (↑(children down c)) fun v => upstream down v := by
  intro v1 hv1 v2 hv2 hne
  have hd1 : down v1 = some c := by
    have := Finset.mem_coe.1 hv1
    simpa [children] using this
  have hd2 : down v2 = some c := by
    have := Finset.mem_coe.1 hv2
    simpa [children] using this
  rw [Function.onFun, Finset.disjoint_left]
  intro u hu1 hu2
  rw [mem_upstream_iff] at hu1 hu2
  obtain ⟨k1, hk1, hi1⟩ := hu1
  obtain ⟨k2, hk2, hi2⟩ := hu2
  rcases le_total k1 k2 with h | h
  · exact no_shared_upstream hstep hd1 hd2 hne hi1 hi2 h
  · exact no_shared_upstream hstep hd2 hd1 (Ne.symm hne) hi2 hi1 h

end RunoffAns

namespace RunoffAns

/-- C6: flow accumulation — in any acyclic drainage network (witnessed by a
topological rank), each cell's accumulated discharge is its own material
(runoff × area) plus the accumulated discharge of the cells whose
downstream pointer targets it; instantiated per day, the discharge field of
`dynamic` satisfies the same recurrence; on the two-cell linear network
with both cells producing runoff `1.0` on area `1`, the accumulated
discharge is `2.0` at the sink and `1.0` at the source; and the value
reported per day is the accumulated discharge at the single gauge cell. -/
theorem flow_accumulation_recurrence :
    (∀ (n : ℕ) (down : Fin n → Option (Fin n)) (material : Fin n → ℚ)
        (rank : Fin n → ℕ),
        (∀ c, rank c < n) →
        (∀ u c, down u = some c → rank u < rank c) →
        ∀ c, accuflux down material c
          = material c + ∑ v ∈ children down c, accuflux down material v)
    ∧ (∀ (n : ℕ) (I : Inputs n) (p : Params) (d : ℕ) (rank : Fin n → ℕ),
        (∀ c, rank c < n) →
        (∀ u c, ldd I u = some c → rank u < rank c) →
        ∀ c, discharge I p d c
          = (dayResult I p d c).runoffGenerated * I.area c
            + ∑ v ∈ children (ldd I) c, discharge I p d v)
    ∧ accuflux twoCellDown twoCellMaterial 1 = 2
    ∧ accuflux twoCellDown twoCellMaterial 0 = 1
    ∧ (∀ (n : ℕ) (I : Inputs n) (p : Params) (d : ℕ),
        runoffAtOutflowPoint I p d
          = accuflux (ldd I)
              (fun u => (dayResult I p d u).runoffGenerated * I.area u)
              I.observationLocation) := by
  have hrec : ∀ (n : ℕ) (down : Fin n → Option (Fin n)) (material : Fin n → ℚ)
      (rank : Fin n → ℕ),
      (∀ c, rank c < n) →
      (∀ u c, down u = some c → rank u < rank c) →
      ∀ c, accuflux down material c
        = material c + ∑ v ∈ children down c, accuflux down material v := by
    intro n down material rank hb hstep c
    rw [accuflux, upstream_eq_insert_biUnion down rank hb hstep c,
      Finset.sum_insert (not_mem_children_biUnion down rank hstep c),
      Finset.sum_biUnion (children_pairwiseDisjoint down rank hstep c)]
    rfl
  have h2 : accuflux twoCellDown twoCellMaterial 1 = 2 := by
    have h : (Finset.filter (fun u => flowsTo twoCellDown u 1) Finset.univ).card = 2 := by
      decide
    simp [accuflux, upstream, twoCellMaterial, h]
  have h1 : accuflux twoCellDown twoCellMaterial 0 = 1 := by
    have h : (Finset.filter (fun u => flowsTo twoCellDown u 0) Finset.univ).card = 1 := by
      decide
    simp [accuflux, upstream, twoCellMaterial, h]
  exact ⟨hrec, fun n I p d rank hb hstep c => hrec n (ldd I) _ rank hb hstep c,
    h2, h1, fun n I p d => rfl⟩

/-- Witness for C6: the recurrence applied to the concrete two-cell linear
network at the sink, with the identity rank discharging acyclicity. -/
theorem flow_accumulation_recurrence_witness :
    accuflux twoCellDown twoCellMaterial 1
      = twoCellMaterial 1
        + ∑ v ∈ children twoCellDown 1, accuflux twoCellDown twoCellMaterial v :=
  flow_accumulation_recurrence.1 2 twoCellDown twoCellMaterial (fun u => u.val)
    (fun c => c.isLt) (by decide) 1

end RunoffAns
